import Mathlib

/-!
Shallow embedding of `mlp.py` (a two-layer perceptron trainer, Python 2 +
numpy).  Matrices are lists of rows over ℚ; the numpy exponential is kept
abstract as a function field `expf : ℚ → ℚ` of the network state (real
`exp` is transcendental, so the embedding is parametric in it — every
theorem below holds for an arbitrary `expf`).  Fallible numpy operations
(`ny.dot`, `ny.concatenate`, broadcasting of elementwise operations, fancy
indexing) return `Except`; the error value carries the Python exception
kind.  Methods that mutate `self` are state transformers whose error case
also carries the state as it stood when the exception was raised.
-/

abbrev Mat := List (List ℚ)

/-- Python exception kinds relevant to `mlp.py`.  `shapeError` and
`unknownActivationError` name the exception classes the specification
document postulates; the source never defines or raises them. -/
inductive PyError where
  | nameError
  | valueError
  | indexError
  | shapeError
  | unknownActivationError
  deriving DecidableEq, Repr

/-- Value returned by a Python callable: `early_stopping` has no `return`
statement, so it returns `None`; the spec instead postulates a pair. -/
inductive PyVal where
  | none
  | pair (count : Nat) (err : ℚ)
  deriving DecidableEq, Repr

/-- Number of columns of a 2-D numpy array (width of the first row). -/
def matWidth (m : Mat) : Nat := (m.headD []).length

/-- numpy broadcasting of one dimension: sizes agree, or one of them is 1. -/
def bcastDim (a b : Nat) : Option Nat :=
  if a = b then some a else if a = 1 then some b else if b = 1 then some a else none

/-- Broadcast a matrix to `r` rows (valid when it has `r` rows or 1 row). -/
def brows (m : Mat) (r : Nat) : Mat :=
  if m.length = 1 then List.replicate r (m.headD []) else m

/-- Broadcast a row to `c` columns (valid when it has `c` entries or 1). -/
def bcols (row : List ℚ) (c : Nat) : List ℚ :=
  if row.length = 1 then List.replicate c (row.headD 0) else row

/-- Elementwise combination after broadcasting both operands to `r × c`. -/
def bzip (f : ℚ → ℚ → ℚ) (a b : Mat) (r c : Nat) : Mat :=
  List.zipWith (fun ra rb => List.zipWith f (bcols ra c) (bcols rb c)) (brows a r) (brows b r)

/-- Elementwise binary numpy operation on 2-D arrays with broadcasting;
raises `ValueError` when the shapes cannot be broadcast together. -/
def matZip (f : ℚ → ℚ → ℚ) (a b : Mat) : Except PyError Mat :=
  match bcastDim a.length b.length, bcastDim (matWidth a) (matWidth b) with
  | some r, some c => .ok (bzip f a b r c)
  | _, _ => .error .valueError

/-- In-place elementwise numpy operation (`+=`, `*=`): the right operand must
broadcast into the left operand's shape, which is preserved. -/
def matInto (f : ℚ → ℚ → ℚ) (a b : Mat) : Except PyError Mat :=
  if (b.length = a.length ∨ b.length = 1) ∧ (matWidth b = matWidth a ∨ matWidth b = 1) then
    .ok (bzip f a b a.length (matWidth a))
  else .error .valueError

/-- Plain elementwise combination of two same-shaped matrices. -/
def matZipP (f : ℚ → ℚ → ℚ) (a b : Mat) : Mat :=
  List.zipWith (List.zipWith f) a b

/-- Elementwise sum of two same-shaped matrices. -/
def matAddP (a b : Mat) : Mat := matZipP (· + ·) a b

/-- Matrix product payload (`ny.dot` on 2-D arrays, inner dimensions aligned). -/
def matMulP (a b : Mat) : Mat :=
  a.map (fun ra => (List.range (matWidth b)).map
    (fun j => (List.zipWith (fun x rb => x * rb.getD j 0) ra b).sum))

/-- `ny.dot` on 2-D arrays: `ValueError` when the shapes are not aligned. -/
def matMul (a b : Mat) : Except PyError Mat :=
  if matWidth a = b.length then .ok (matMulP a b) else .error .valueError

/-- `ny.transpose`. -/
def matT (m : Mat) : Mat :=
  (List.range (matWidth m)).map (fun j => m.map (fun r => r.getD j 0))

/-- `ny.concatenate((a, b), axis = 1)`: row counts must agree. -/
def concatCols (a b : Mat) : Except PyError Mat :=
  if a.length = b.length then .ok (List.zipWith (· ++ ·) a b) else .error .valueError

/-- `m[:, :-1]`: drop the trailing column. -/
def dropLastCol (m : Mat) : Mat := m.map List.dropLast

/-- Fancy row indexing `m[idx, :]`: `IndexError` when an index is out of range. -/
def indexRows (m : Mat) (idx : List Nat) : Except PyError Mat :=
  if ∀ i ∈ idx, i < m.length then .ok (idx.map (fun i => m.getD i [])) else .error .indexError

/-- `ny.zeros(ny.shape(m))`. -/
def zerosLike (m : Mat) : Mat := m.map (fun r => r.map (fun _ => (0 : ℚ)))

/-- Scalar multiple of every entry. -/
def matSMul (c : ℚ) (m : Mat) : Mat := m.map (fun r => r.map (fun x => c * x))

/-- Divide every entry by a scalar (`/=` with an integer divisor). -/
def matSDiv (m : Mat) (c : ℚ) : Mat := m.map (fun r => r.map (fun x => x / c))

/-- `c - m` elementwise (scalar minus array). -/
def scalarSub (c : ℚ) (m : Mat) : Mat := m.map (fun r => r.map (fun x => c - x))

/-- `1.0 / (1.0 + ny.exp(-beta * m))` elementwise, with the abstract
exponential `ef` standing for `ny.exp`. -/
def sigmoidMat (beta : ℚ) (ef : ℚ → ℚ) (m : Mat) : Mat :=
  m.map (fun r => r.map (fun x => 1 / (1 + ef (-(beta * x)))))

/-- Lines 133-134 of the source: `normalisers = ny.sum(ny.exp(outputs), axis=1)
* ny.ones((1, ny.shape(outputs)[0]))` followed by the double transpose divides
every entry `outputs[i][j]` by the sum of `ny.exp` over row `i`. -/
def softmaxRows (ef : ℚ → ℚ) (m : Mat) : Mat :=
  m.map (fun r => let n := (r.map ef).sum; r.map (fun x => ef x / n))

/-- `m` is an `r × c` matrix. -/
def Rect (m : Mat) (r c : Nat) : Prop := m.length = r ∧ ∀ row ∈ m, row.length = c

/-- State of an `MLP` object.  The attributes `eta`, `outtype`, `update_w1`,
`update_w2`, `hidden` and `outputs` are only created by `train`/`_forward` in
the Python source; they are modelled as fields holding inert defaults until
the corresponding assignment runs.  `expf` models the ambient `ny.exp`. -/
structure MLPState where
  inputs : Mat
  targets : Mat
  nodes_in : Nat
  nodes_out : Nat
  data_amount : Nat
  nodes_hidden : Nat
  beta : ℚ
  momentum : ℚ
  weights_layer1 : Mat
  weights_layer2 : Mat
  eta : ℚ
  outtype : String
  update_w1 : Mat
  update_w2 : Mat
  hidden : Mat
  outputs : Mat
  expf : ℚ → ℚ

/-- `MLP.__init__` (lines 14-39).  `rand r c` models `ny.random.rand(r, c)`
(injected randomness).  `len(inputs[0])` / `len(targets[0])` raise
`IndexError` on empty arguments; a ragged `inputs` list becomes a 1-D object
array under `ny.array`, so the axis-1 `ny.concatenate` of the bias column
raises `ValueError`.  No comparison of input and target row counts occurs. -/
def MLP.init (inputs targets : Mat) (hidden_nodes : Nat) (beta momentum : ℚ)
    (rand : Nat → Nat → Mat) (ef : ℚ → ℚ) : Except PyError MLPState :=
  match inputs.head? with
  | none => .error .indexError
  | some i0 =>
    match targets.head? with
    | none => .error .indexError
    | some t0 =>
      let nodes_in := i0.length
      let nodes_out := t0.length
      let data_amount := inputs.length
      if ∀ r ∈ inputs, r.length = nodes_in then
        .ok { inputs := List.zipWith (· ++ ·) inputs (List.replicate data_amount [(-1 : ℚ)]),
              targets := targets,
              nodes_in := nodes_in, nodes_out := nodes_out, data_amount := data_amount,
              nodes_hidden := hidden_nodes, beta := beta, momentum := momentum,
              weights_layer1 := rand (nodes_in + 1) hidden_nodes,
              weights_layer2 := rand (hidden_nodes + 1) nodes_out,
              eta := 0, outtype := "", update_w1 := [], update_w2 := [],
              hidden := [], outputs := [], expf := ef }
      else .error .valueError

/-- `MLP._forward` (lines 112-138).  Returns the computed outputs and the
state (whose `hidden` attribute the method overwrote).  On an unrecognized
`outtype` the `else` branch (line 136) evaluates the undefined name `outtype`
— the attribute is `self.outtype` — so Python raises `NameError` before
anything is printed. -/
def MLP.forward (s : MLPState) (inputs : Mat) : Except (PyError × MLPState) (Mat × MLPState) :=
  let ones : Mat := List.replicate inputs.length [(-1 : ℚ)]
  match matMul inputs s.weights_layer1 with
  | .error e => .error (e, s)
  | .ok h =>
    let s := { s with hidden := h }
    let s := { s with hidden := sigmoidMat s.beta s.expf s.hidden }
    match concatCols s.hidden ones with
    | .error e => .error (e, s)
    | .ok h2 =>
      let s := { s with hidden := h2 }
      match matMul s.hidden s.weights_layer2 with
      | .error e => .error (e, s)
      | .ok outputs =>
        if s.outtype = "linear" then .ok (outputs, s)
        else if s.outtype = "logistic" then .ok (sigmoidMat s.beta s.expf outputs, s)
        else if s.outtype = "softmax" then .ok (softmaxRows s.expf outputs, s)
        else .error (.nameError, s)

/-- The computation of `MLP._compute_errors` (lines 141-161): `deltao` is
`targets - outputs` scaled per `outtype` (an unrecognized `outtype` leaves it
unscaled), `deltah` is `hidden · (1 - hidden)` times the error propagated
back through the layer-2 weights. -/
def MLP.compute_errors_val (s : MLPState) : Except PyError (Mat × Mat) :=
  match matZip (· - ·) s.targets s.outputs with
  | .error e => .error e
  | .ok deltao0 =>
    let scaled : Except PyError Mat :=
      if s.outtype = "linear" then .ok (matSDiv deltao0 (s.data_amount : ℚ))
      else if s.outtype = "logistic" then
        match matZip (· * ·) s.outputs (scalarSub 1 s.outputs) with
        | .error e => .error e
        | .ok d => matInto (· * ·) deltao0 d
      else if s.outtype = "softmax" then .ok (matSDiv deltao0 (s.data_amount : ℚ))
      else .ok deltao0
    match scaled with
    | .error e => .error e
    | .ok deltao =>
      match matZip (· * ·) s.hidden (scalarSub 1 s.hidden) with
      | .error e => .error e
      | .ok deltah0 =>
        match matMul deltao (matT s.weights_layer2) with
        | .error e => .error e
        | .ok back =>
          match matInto (· * ·) deltah0 back with
          | .error e => .error e
          | .ok deltah => .ok (deltao, deltah)

/-- `MLP._compute_errors` as a method: it reads `targets`, `outputs`,
`hidden` and `weights_layer2` but assigns no attribute (`deltao` and `deltah`
are locals it returns), so the state comes through unchanged, also when an
exception is raised mid-computation. -/
def MLP.compute_errors (s : MLPState) : Except (PyError × MLPState) ((Mat × Mat) × MLPState) :=
  match MLP.compute_errors_val s with
  | .error e => .error (e, s)
  | .ok v => .ok (v, s)

/-- `MLP._update_weights` (lines 164-181), statement by statement: scale each
momentum accumulator, add `eta` times the gradient into it in place, then add
each accumulator into its weight matrix in place (weights last). -/
def MLP.update_weights (s : MLPState) (deltao deltah : Mat) : Except (PyError × MLPState) MLPState :=
  let inputs_tr := matT s.inputs
  let hidden_tr := matT s.hidden
  let s := { s with update_w1 := matSMul s.momentum s.update_w1 }
  match matMul inputs_tr (dropLastCol deltah) with
  | .error e => .error (e, s)
  | .ok g1 =>
    match matInto (· + ·) s.update_w1 (matSMul s.eta g1) with
    | .error e => .error (e, s)
    | .ok u1 =>
      let s := { s with update_w1 := u1 }
      let s := { s with update_w2 := matSMul s.momentum s.update_w2 }
      match matMul hidden_tr deltao with
      | .error e => .error (e, s)
      | .ok g2 =>
        match matInto (· + ·) s.update_w2 (matSMul s.eta g2) with
        | .error e => .error (e, s)
        | .ok u2 =>
          let s := { s with update_w2 := u2 }
          match matInto (· + ·) s.weights_layer1 s.update_w1 with
          | .error e => .error (e, s)
          | .ok w1 =>
            let s := { s with weights_layer1 := w1 }
            match matInto (· + ·) s.weights_layer2 s.update_w2 with
            | .error e => .error (e, s)
            | .ok w2 => .ok { s with weights_layer2 := w2 }

/-- Lines 106-109 of `train`: apply the freshly shuffled index list to the
stored inputs (line 108) and then to the stored targets (line 109). -/
def MLP.shuffleStep (perm : List Nat) (s : MLPState) : Except (PyError × MLPState) MLPState :=
  match indexRows s.inputs perm with
  | .error e => .error (e, s)
  | .ok i =>
    let s := { s with inputs := i }
    match indexRows s.targets perm with
    | .error e => .error (e, s)
    | .ok t => .ok { s with targets := t }

/-- One iteration of the training loop (lines 99-109): forward pass over the
stored dataset, error computation, weight update, dataset permutation. -/
def MLP.trainStep (perm : List Nat) (s : MLPState) : Except (PyError × MLPState) MLPState :=
  match MLP.forward s s.inputs with
  | .error e => .error e
  | .ok (o, s) =>
    let s := { s with outputs := o }
    match MLP.compute_errors s with
    | .error e => .error e
    | .ok ((deltao, deltah), s) =>
      match MLP.update_weights s deltao deltah with
      | .error e => .error e
      | .ok s => MLP.shuffleStep perm s

/-- Lines 90-96 of `train`: record `eta` and `outtype`, reset both momentum
accumulators to zero matrices shaped like the weight matrices. -/
def MLP.trainInit (s : MLPState) (eta : ℚ) (outtype : String) : MLPState :=
  { s with eta := eta, outtype := outtype,
           update_w1 := zerosLike s.weights_layer1,
           update_w2 := zerosLike s.weights_layer2 }

/-- The `for n in range(iterations)` loop of `train`; `perms i` models the
contents of the index list after the `ny.random.shuffle` of iteration `i`. -/
def MLP.trainLoop (perms : Nat → List Nat) : Nat → Nat → MLPState → Except (PyError × MLPState) MLPState
  | _, 0, s => .ok s
  | i, Nat.succ n, s =>
    match MLP.trainStep (perms i) s with
    | .error e => .error e
    | .ok s2 => MLP.trainLoop perms (i + 1) n s2

/-- `MLP.train` (lines 82-109). -/
def MLP.train (s : MLPState) (eta : ℚ) (iterations : Nat) (outtype : String)
    (perms : Nat → List Nat) : Except (PyError × MLPState) MLPState :=
  MLP.trainLoop perms 0 iterations (MLP.trainInit s eta outtype)

/-- `MLP.use` (lines 184-207): wrap the raw vector as a one-row array, append
the bias entry, and run the two layers with the logistic output squashing
written out inline — `self.outtype` is never consulted. -/
def MLP.use (s : MLPState) (x : List ℚ) : Except PyError Mat :=
  let inputs : Mat := [x]
  let ones : Mat := [[(-1 : ℚ)]]
  match concatCols inputs ones with
  | .error e => .error e
  | .ok inputs2 =>
    match matMul inputs2 s.weights_layer1 with
    | .error e => .error e
    | .ok hidden =>
      let hidden := sigmoidMat s.beta s.expf hidden
      match concatCols hidden ones with
      | .error e => .error e
      | .ok hidden2 =>
        match matMul hidden2 s.weights_layer2 with
        | .error e => .error e
        | .ok outputs => .ok (sigmoidMat s.beta s.expf outputs)

/-- Outcome of `early_stopping`.  Every constructor carries `callerValid` and
`callerVT`: the caller-supplied validation arrays as the call leaves them.  An
in-place numpy mutation of `valid` or `validtargets` would have to update
them; the source has none (line 65 rebinds the local name `valid` to a fresh
concatenated array, and line 78 only reads `validtargets`). -/
inductive ESOut where
  | diverged (callerValid callerVT : Mat)
  | failed (e : PyError) (s : MLPState) (callerValid callerVT : Mat)
  | done (s : MLPState) (count : Nat) (newValErr : ℚ) (ret : PyVal) (callerValid callerVT : Mat)

/-- The `while` loop of `early_stopping` (lines 70-78), fuel-bounded;
`ESOut.diverged` models non-termination.  `perms round` feeds the shuffles of
the round's `train` burst.  The loop-progress prints (lines 72-73, 79) touch
no array state and are not modelled. -/
def MLP.esLoop (valid2 validtargets cv cvt : Mat) (eta : ℚ) (iterations : Nat)
    (outtype : String) (perms : Nat → Nat → List Nat) :
    Nat → MLPState → ℚ → ℚ → ℚ → Nat → ESOut
  | 0, _, _, _, _, _ => ESOut.diverged cv cvt
  | Nat.succ fuel, s, old2, old1, newE, count =>
    if (old1 - newE > 1 / 1000) ∨ (old2 - old1 > 1 / 1000) then
      let count := count + 1
      match MLP.train s eta iterations outtype (perms count) with
      | .error (e, sF) => ESOut.failed e sF cv cvt
      | .ok s =>
        let old2 := old1
        let old1 := newE
        match MLP.forward s valid2 with
        | .error (e, sF) => ESOut.failed e sF cv cvt
        | .ok (validout, s) =>
          match matZip (· - ·) validtargets validout with
          | .error e => ESOut.failed e s cv cvt
          | .ok diff =>
            let newE := (1 / 2 : ℚ) * (diff.map (fun r => (r.map (fun x => x * x)).sum)).sum
            MLP.esLoop valid2 validtargets cv cvt eta iterations outtype perms fuel s old2 old1 newE count
    else ESOut.done s count newE PyVal.none cv cvt

/-- `MLP.early_stopping` (lines 57-79): append the bias column to a fresh
local copy of the validation inputs, seed the sentinel errors 100002, 100001,
100000 and `count = 0`, and run the loop.  The method has no `return`
statement, so its Python return value is `None` (`PyVal.none` in `ESOut.done`). -/
def MLP.early_stopping (fuel : Nat) (s : MLPState) (valid validtargets : Mat)
    (eta : ℚ) (iterations : Nat) (outtype : String) (perms : Nat → Nat → List Nat) : ESOut :=
  match concatCols valid (List.replicate valid.length [(-1 : ℚ)]) with
  | .error e => ESOut.failed e s valid validtargets
  | .ok valid2 =>
    MLP.esLoop valid2 validtargets valid validtargets eta iterations outtype perms fuel s 100002 100001 100000 0

/-- Exception kind with which a state-threading computation failed, if any. -/
def errOf {α : Type} : Except (PyError × MLPState) α → Option PyError
  | .error (e, _) => some e
  | .ok _ => none

/-- `weights_layer1` of the state carried by a failure, if any. -/
def errW1 {α : Type} : Except (PyError × MLPState) α → Option Mat
  | .error (_, sF) => some sF.weights_layer1
  | .ok _ => none

/-- Loop counter, final validation error and return value of a normally
terminated `early_stopping` call. -/
def doneOf : ESOut → Option (Nat × ℚ × PyVal)
  | ESOut.done _ c e r _ _ => some (c, e, r)
  | _ => none

/-- The caller-supplied validation arrays as `early_stopping` leaves them. -/
def cvOf : ESOut → Mat × Mat
  | ESOut.diverged cv cvt => (cv, cvt)
  | ESOut.failed _ _ cv cvt => (cv, cvt)
  | ESOut.done _ _ _ _ cv cvt => (cv, cvt)


/-! ### Concrete states and helper projections used by the claim theorems -/

/-- Concrete instance of the momentum update rule. -/
def exU5 : MLPState :=
  { inputs := [[1, -1]], targets := [[0]],
    nodes_in := 1, nodes_out := 1, data_amount := 1, nodes_hidden := 1,
    beta := 1, momentum := 9/10,
    weights_layer1 := [[1], [1]], weights_layer2 := [[1], [1]],
    eta := 1/2, outtype := "linear", update_w1 := [[1], [2]], update_w2 := [[3], [4]],
    hidden := [[1, -1]], outputs := [[0]], expf := fun _ => 1 }

/-- Concrete state for the momentum-reset rule (its accumulators hold the
zeros that `trainInit` writes). -/
def exU7 : MLPState :=
  { inputs := [[1, -1]], targets := [[0]],
    nodes_in := 1, nodes_out := 1, data_amount := 1, nodes_hidden := 1,
    beta := 1, momentum := 9/10,
    weights_layer1 := [[1], [1]], weights_layer2 := [[1], [1]],
    eta := 1/2, outtype := "linear", update_w1 := [[0], [0]], update_w2 := [[0], [0]],
    hidden := [[1, -1]], outputs := [[0]], expf := fun _ => 1 }

/-- Concrete state for the backward-pass rule. -/
def exC6 : MLPState :=
  { inputs := [[1, -1]], targets := [[0]],
    nodes_in := 1, nodes_out := 1, data_amount := 1, nodes_hidden := 1,
    beta := 1, momentum := 9/10,
    weights_layer1 := [[1], [1]], weights_layer2 := [[1], [1]],
    eta := 1/4, outtype := "logistic", update_w1 := [[0], [0]], update_w2 := [[0], [0]],
    hidden := [[1/2, -1]], outputs := [[1/2]], expf := fun _ => 1 }

/-- Concrete state for the shuffle rule. -/
def exS8 : MLPState :=
  { inputs := [[1, 2, -1], [3, 4, -1]], targets := [[5], [6]],
    nodes_in := 2, nodes_out := 1, data_amount := 2, nodes_hidden := 1,
    beta := 1, momentum := 9/10,
    weights_layer1 := [[1], [1], [1]], weights_layer2 := [[1], [1]],
    eta := 1/4, outtype := "logistic", update_w1 := [[0], [0], [0]], update_w2 := [[0], [0]],
    hidden := [[1/2, -1], [1/2, -1]], outputs := [[0], [0]], expf := fun _ => 1 }

/-- Forget the state component of a `_forward` result, keeping the Python
return value (the outputs) or the exception. -/
def forwardValue : Except (PyError × MLPState) (Mat × MLPState) → Except PyError Mat
  | .ok (o, _) => .ok o
  | .error (e, _) => .error e

/-- Concrete network for exercising `early_stopping`: with `eta = 0` the
weights never move, the validation error is the same every round, and the
sliding-window criterion exits after round 2. -/
def exES : MLPState :=
  { inputs := [[1, -1]], targets := [[0]],
    nodes_in := 1, nodes_out := 1, data_amount := 1, nodes_hidden := 1,
    beta := 1, momentum := 9/10,
    weights_layer1 := [[1], [1]], weights_layer2 := [[1], [1]],
    eta := 0, outtype := "", update_w1 := [], update_w2 := [],
    hidden := [], outputs := [], expf := fun _ => 1 }

/-- Network whose stored targets hold one row while `data_amount` is 2 (the
constructor accepts this).  numpy broadcasting stretches the single target
row across both output rows, so forward pass, error computation and weight
update all succeed — and then `targets[shuffle, :]` raises `IndexError`,
after the weights were already mutated. -/
def exS3 : MLPState :=
  { inputs := [[1, -1], [1, -1]], targets := [[0]],
    nodes_in := 1, nodes_out := 1, data_amount := 2, nodes_hidden := 1,
    beta := 1, momentum := 9/10,
    weights_layer1 := [[1], [1]], weights_layer2 := [[1], [1]],
    eta := 0, outtype := "", update_w1 := [], update_w2 := [],
    hidden := [], outputs := [], expf := fun _ => 1 }

/-- State whose `outtype` is unrecognized, so its forward pass raises. -/
def exF1 : MLPState :=
  { inputs := [[1, -1]], targets := [[0]], nodes_in := 1, nodes_out := 1,
    data_amount := 1, nodes_hidden := 1, beta := 1, momentum := 9/10,
    weights_layer1 := [[1], [1]], weights_layer2 := [[1], [1]],
    eta := 1/4, outtype := "weird", update_w1 := [[0], [0]], update_w2 := [[0], [0]],
    hidden := [], outputs := [], expf := fun _ => 1 }

/-- The state `_forward` has built when the unknown-`outtype` `NameError`
fires: only `hidden` was overwritten. -/
def exF1hidden : Mat :=
  List.zipWith (· ++ ·)
    (sigmoidMat exF1.beta exF1.expf (matMulP [[1, -1]] exF1.weights_layer1))
    (List.replicate (List.length ([[1, -1]] : Mat)) [(-1 : ℚ)])

def exF1post : MLPState := { exF1 with hidden := exF1hidden }

/-- State whose stored targets (2 rows) cannot be broadcast against its
outputs (3 rows), so `_compute_errors` raises at `targets - outputs`. -/
def exF2 : MLPState :=
  { inputs := [[1, -1]], targets := [[0], [0]], nodes_in := 1, nodes_out := 1,
    data_amount := 1, nodes_hidden := 1, beta := 1, momentum := 9/10,
    weights_layer1 := [[1], [1]], weights_layer2 := [[1], [1]],
    eta := 1/4, outtype := "linear", update_w1 := [[0], [0]], update_w2 := [[0], [0]],
    hidden := [[1, -1]], outputs := [[0], [0], [0]], expf := fun _ => 1 }

/-- State on which `_update_weights` fails at the layer-1 gradient product
(an empty `deltah` cannot be multiplied against the transposed inputs). -/
def exF3 : MLPState :=
  { inputs := [[1, -1]], targets := [[0]], nodes_in := 1, nodes_out := 1,
    data_amount := 1, nodes_hidden := 1, beta := 1, momentum := 9/10,
    weights_layer1 := [[1]], weights_layer2 := [[1]],
    eta := 1/4, outtype := "linear", update_w1 := [[0]], update_w2 := [[0]],
    hidden := [[1, -1]], outputs := [[0]], expf := fun _ => 1 }

/-- The state `_update_weights` has built when that product raises: only the
layer-1 accumulator was scaled by the momentum factor. -/
def exF3post : MLPState :=
  { exF3 with update_w1 := matSMul exF3.momentum exF3.update_w1 }

/-- Small well-shaped network used for the unknown-`outtype` claims. -/
def exS1 : MLPState :=
  { inputs := [[1, -1]], targets := [[0]], nodes_in := 1, nodes_out := 1,
    data_amount := 1, nodes_hidden := 1, beta := 1, momentum := 9/10,
    weights_layer1 := [[1], [1]], weights_layer2 := [[1], [1]],
    eta := 0, outtype := "", update_w1 := [], update_w2 := [],
    hidden := [], outputs := [], expf := fun _ => 1 }

/-- Deterministic stand-in for `ny.random.rand`. -/
def rand0 : Nat → Nat → Mat := fun r c => List.replicate r (List.replicate c (1/2))

/-! ### Shape infrastructure -/

instance rectDecidable (m : Mat) (r c : Nat) : Decidable (Rect m r c) :=
  inferInstanceAs (Decidable (m.length = r ∧ ∀ row ∈ m, row.length = c))

theorem rect_length {m : Mat} {r c : Nat} (h : Rect m r c) : m.length = r := h.1

theorem rect_width {m : Mat} {r c : Nat} (h : Rect m r c) (hr : 0 < r) : matWidth m = c := by
  rcases m with _ | ⟨row, rest⟩
  · have := h.1; simp at this; omega
  · simpa [matWidth] using h.2 row (by simp)

theorem brows_self {m : Mat} {k : Nat} (h : m.length = k) : brows m k = m := by
  unfold brows
  by_cases h1 : m.length = 1
  · rcases m with _ | ⟨row, rest⟩
    · simp at h1
    · have hrest : rest = [] := List.eq_nil_of_length_eq_zero (by simpa using h1)
      subst hrest
      have hk : k = 1 := by omega
      simp [h1, hk, List.replicate]
  · simp [h1]

theorem bcols_self {row : List ℚ} {k : Nat} (h : row.length = k) : bcols row k = row := by
  unfold bcols
  by_cases h1 : row.length = 1
  · rcases row with _ | ⟨x, rest⟩
    · simp at h1
    · have hrest : rest = [] := List.eq_nil_of_length_eq_zero (by simpa using h1)
      subst hrest
      have hk : k = 1 := by omega
      simp [hk, List.replicate]
  · simp [h1]

theorem zipWith_bcols (f : ℚ → ℚ → ℚ) {a b : Mat} {c : Nat}
    (ha : ∀ r ∈ a, r.length = c) (hb : ∀ r ∈ b, r.length = c) :
    List.zipWith (fun ra rb => List.zipWith f (bcols ra c) (bcols rb c)) a b
      = List.zipWith (List.zipWith f) a b := by
  induction a generalizing b with
  | nil => simp
  | cons ra as ih =>
    cases b with
    | nil => simp
    | cons rb bs =>
      have h1 : bcols ra c = ra := bcols_self (ha ra (by simp))
      have h2 : bcols rb c = rb := bcols_self (hb rb (by simp))
      simp only [List.zipWith, h1, h2]
      rw [ih (fun r hr => ha r (by simp [hr])) (fun r hr => hb r (by simp [hr]))]

theorem bzip_eq {f : ℚ → ℚ → ℚ} {a b : Mat} {r c : Nat}
    (ha : Rect a r c) (hb : Rect b r c) : bzip f a b r c = matZipP f a b := by
  unfold bzip matZipP
  rw [brows_self ha.1, brows_self hb.1, zipWith_bcols f ha.2 hb.2]

theorem matZip_eq {f : ℚ → ℚ → ℚ} {a b : Mat} {r c : Nat}
    (ha : Rect a r c) (hb : Rect b r c) : matZip f a b = .ok (matZipP f a b) := by
  rcases Nat.eq_zero_or_pos r with hr | hr
  · subst hr
    have ha0 : a = [] := List.eq_nil_of_length_eq_zero ha.1
    have hb0 : b = [] := List.eq_nil_of_length_eq_zero hb.1
    subst ha0; subst hb0
    simp [matZip, bcastDim, matWidth, bzip, brows, matZipP, List.replicate]
  · have hwa : matWidth a = c := rect_width ha hr
    have hwb : matWidth b = c := rect_width hb hr
    unfold matZip
    rw [ha.1, hb.1, hwa, hwb]
    have h1 : bcastDim r r = some r := by simp [bcastDim]
    have h2 : bcastDim c c = some c := by simp [bcastDim]
    rw [h1, h2]
    exact congrArg Except.ok (bzip_eq ha hb)

theorem matInto_eq {f : ℚ → ℚ → ℚ} {a b : Mat} {r c : Nat}
    (ha : Rect a r c) (hb : Rect b r c) : matInto f a b = .ok (matZipP f a b) := by
  rcases Nat.eq_zero_or_pos r with hr | hr
  · subst hr
    have ha0 : a = [] := List.eq_nil_of_length_eq_zero ha.1
    have hb0 : b = [] := List.eq_nil_of_length_eq_zero hb.1
    subst ha0; subst hb0
    simp [matInto, matWidth, bzip, brows, matZipP, List.replicate]
  · have hwa : matWidth a = c := rect_width ha hr
    have hwb : matWidth b = c := rect_width hb hr
    unfold matInto
    rw [if_pos ⟨Or.inl (hb.1.trans ha.1.symm), Or.inl (hwb.trans hwa.symm)⟩]
    rw [ha.1, hwa]
    exact congrArg Except.ok (bzip_eq ha hb)

theorem matMul_ok {a b : Mat} (h : matWidth a = b.length) : matMul a b = .ok (matMulP a b) := by
  simp [matMul, h]

theorem rect_matMulP (a b : Mat) : Rect (matMulP a b) a.length (matWidth b) := by
  constructor
  · simp [matMulP]
  · intro row hrow
    simp only [matMulP, List.mem_map] at hrow
    obtain ⟨ra, _, rfl⟩ := hrow
    simp

theorem rect_matT (m : Mat) : Rect (matT m) (matWidth m) m.length := by
  constructor
  · simp [matT]
  · intro row hrow
    simp only [matT, List.mem_map] at hrow
    obtain ⟨j, _, rfl⟩ := hrow
    simp

theorem rect_rowmap {g : ℚ → ℚ} {m : Mat} {r c : Nat} (h : Rect m r c) :
    Rect (m.map (fun row => row.map g)) r c := by
  constructor
  · simp [h.1]
  · intro row hrow
    simp only [List.mem_map] at hrow
    obtain ⟨row0, hrow0, rfl⟩ := hrow
    simp [h.2 row0 hrow0]

theorem rect_matSMul {q : ℚ} {m : Mat} {r c : Nat} (h : Rect m r c) : Rect (matSMul q m) r c :=
  rect_rowmap h

theorem rect_matSDiv {q : ℚ} {m : Mat} {r c : Nat} (h : Rect m r c) : Rect (matSDiv m q) r c :=
  rect_rowmap h

theorem rect_scalarSub {q : ℚ} {m : Mat} {r c : Nat} (h : Rect m r c) : Rect (scalarSub q m) r c :=
  rect_rowmap h

theorem rect_zerosLike {m : Mat} {r c : Nat} (h : Rect m r c) : Rect (zerosLike m) r c :=
  rect_rowmap h

theorem rect_sigmoidMat {beta : ℚ} {ef : ℚ → ℚ} {m : Mat} {r c : Nat} (h : Rect m r c) :
    Rect (sigmoidMat beta ef m) r c :=
  rect_rowmap h

theorem rect_dropLastCol {m : Mat} {r c : Nat} (h : Rect m r (c + 1)) :
    Rect (dropLastCol m) r c := by
  constructor
  · simp [dropLastCol, h.1]
  · intro row hrow
    simp only [dropLastCol, List.mem_map] at hrow
    obtain ⟨row0, hrow0, rfl⟩ := hrow
    simp [h.2 row0 hrow0]

theorem mem_zipWith_decomp {α β γ : Type} {f : α → β → γ} {a : List α} {b : List β} {x : γ}
    (h : x ∈ List.zipWith f a b) : ∃ y ∈ a, ∃ z ∈ b, x = f y z := by
  induction a generalizing b with
  | nil => simp at h
  | cons ya as ih =>
    cases b with
    | nil => simp at h
    | cons zb bs =>
      simp only [List.zipWith, List.mem_cons] at h
      rcases h with rfl | h
      · exact ⟨ya, by simp, zb, by simp, rfl⟩
      · obtain ⟨y, hy, z, hz, rfl⟩ := ih h
        exact ⟨y, by simp [hy], z, by simp [hz], rfl⟩

theorem rect_matZipP {f : ℚ → ℚ → ℚ} {a b : Mat} {r c : Nat}
    (ha : Rect a r c) (hb : Rect b r c) : Rect (matZipP f a b) r c := by
  constructor
  · simp [matZipP, ha.1, hb.1]
  · intro row hrow
    obtain ⟨ra, hra, rb, hrb, rfl⟩ := mem_zipWith_decomp hrow
    simp [ha.2 ra hra, hb.2 rb hrb]

theorem matWidth_rowmap {g : ℚ → ℚ} {m : Mat} :
    matWidth (m.map (fun row => row.map g)) = matWidth m := by
  cases m <;> simp [matWidth]

theorem length_matSMul {q : ℚ} {m : Mat} : (matSMul q m).length = m.length := by
  simp [matSMul]

theorem matWidth_matSMul {q : ℚ} {m : Mat} : matWidth (matSMul q m) = matWidth m :=
  matWidth_rowmap

theorem matWidth_matMulP {a b : Mat} (ha : a ≠ []) : matWidth (matMulP a b) = matWidth b := by
  rcases a with _ | ⟨ra, as⟩
  · exact absurd rfl ha
  · simp [matMulP, matWidth]

theorem matWidth_matT {m : Mat} (h : 0 < matWidth m) : matWidth (matT m) = m.length := by
  unfold matT
  rcases hw : matWidth m with _ | w
  · omega
  · simp [List.range_succ_eq_map, matWidth]

theorem matInto_cond {f : ℚ → ℚ → ℚ} {a b m : Mat} (h : matInto f a b = .ok m) :
    (b.length = a.length ∨ b.length = 1) ∧ (matWidth b = matWidth a ∨ matWidth b = 1) := by
  by_cases hc : (b.length = a.length ∨ b.length = 1) ∧ (matWidth b = matWidth a ∨ matWidth b = 1)
  · exact hc
  · simp [matInto, hc] at h

theorem matInto_ok_val {f : ℚ → ℚ → ℚ} {a b m : Mat} (h : matInto f a b = .ok m) :
    m = bzip f a b a.length (matWidth a) := by
  have hc := matInto_cond h
  simp [matInto, hc] at h
  exact h.symm


theorem matWidth_brows {b : Mat} {n : Nat} (hn : 0 < n) : matWidth (brows b n) = matWidth b := by
  unfold brows
  by_cases h2 : b.length = 1
  · rcases n with _ | n
    · omega
    · simp [h2, matWidth, List.replicate]
  · simp [h2]

theorem matInto_ok_length {f : ℚ → ℚ → ℚ} {a b m : Mat} (h : matInto f a b = .ok m) :
    m.length = a.length := by
  have hc := matInto_cond h
  rw [matInto_ok_val h]
  unfold bzip
  rw [brows_self rfl]
  rcases hc.1 with h1 | h1
  · rw [brows_self h1]; simp [h1]
  · simp [brows, h1]

theorem matInto_ok_width {f : ℚ → ℚ → ℚ} {a b m : Mat} (h : matInto f a b = .ok m)
    (ha : 0 < a.length) : matWidth m = matWidth a := by
  have hc := matInto_cond h
  rcases a with _ | ⟨ra, as⟩
  · simp at ha
  · have hbne : brows b (ra :: as).length ≠ [] := by
      unfold brows
      by_cases h2 : b.length = 1
      · simp [h2]
      · rw [if_neg h2]
        intro hb0
        subst hb0
        rcases hc.1 with h1 | h1 <;> simp at h1
    obtain ⟨rb, bs, hbb⟩ := List.exists_cons_of_ne_nil hbne
    have hrbw : rb.length = matWidth b := by
      have hmb := matWidth_brows (b := b) (n := (ra :: as).length) (by simp)
      rw [hbb] at hmb
      simpa [matWidth] using hmb
    rw [matInto_ok_val h]
    unfold bzip
    rw [brows_self rfl, hbb]
    have hw : matWidth (ra :: as) = ra.length := rfl
    rw [hw]
    show matWidth (List.zipWith f (bcols ra ra.length) (bcols rb ra.length) :: _) = ra.length
    rw [bcols_self rfl]
    simp only [matWidth, List.headD, List.head?, Option.getD, List.length_zipWith]
    unfold bcols
    by_cases h3 : rb.length = 1
    · simp [h3]
    · rw [if_neg h3]
      have hlen : rb.length = ra.length := by
        rcases hc.2 with h4 | h4
        · rw [hrbw, h4]; exact hw
        · exact absurd (hrbw.trans h4) h3
      simp [hlen]

theorem matInto_succeeds {f : ℚ → ℚ → ℚ} {a b : Mat}
    (hl : b.length = a.length) (hw : matWidth b = matWidth a) :
    matInto f a b = .ok (bzip f a b a.length (matWidth a)) := by
  simp [matInto, hl, hw]

/-- Shared characterisation of a successful `_update_weights` call on
well-shaped data: each accumulator becomes `momentum·old + eta·gradient` and
each weight matrix gains the new accumulator. -/
theorem update_weights_eq (s : MLPState) (deltao deltah : Mat) {N ni1 h out : Nat}
    (hN : 0 < N) (hni : 0 < ni1)
    (hI : Rect s.inputs N ni1) (hdh : Rect deltah N (h + 1))
    (hu1 : Rect s.update_w1 ni1 h) (hw1 : Rect s.weights_layer1 ni1 h)
    (hH : Rect s.hidden N (h + 1)) (hdo : Rect deltao N out)
    (hu2 : Rect s.update_w2 (h + 1) out) (hw2 : Rect s.weights_layer2 (h + 1) out) :
    MLP.update_weights s deltao deltah = .ok
      { s with
        update_w1 := matZipP (· + ·) (matSMul s.momentum s.update_w1)
          (matSMul s.eta (matMulP (matT s.inputs) (dropLastCol deltah))),
        update_w2 := matZipP (· + ·) (matSMul s.momentum s.update_w2)
          (matSMul s.eta (matMulP (matT s.hidden) deltao)),
        weights_layer1 := matZipP (· + ·) s.weights_layer1
          (matZipP (· + ·) (matSMul s.momentum s.update_w1)
            (matSMul s.eta (matMulP (matT s.inputs) (dropLastCol deltah)))),
        weights_layer2 := matZipP (· + ·) s.weights_layer2
          (matZipP (· + ·) (matSMul s.momentum s.update_w2)
            (matSMul s.eta (matMulP (matT s.hidden) deltao))) } := by
  have hIT : Rect (matT s.inputs) ni1 N := by
    have h0 := rect_matT s.inputs
    rwa [rect_width hI hN, hI.1] at h0
  have hHT : Rect (matT s.hidden) (h + 1) N := by
    have h0 := rect_matT s.hidden
    rwa [rect_width hH hN, hH.1] at h0
  have hdh' : Rect (dropLastCol deltah) N h := rect_dropLastCol hdh
  have hmm1 : matMul (matT s.inputs) (dropLastCol deltah)
      = .ok (matMulP (matT s.inputs) (dropLastCol deltah)) :=
    matMul_ok ((rect_width hIT hni).trans hdh'.1.symm)
  have hg1 : Rect (matMulP (matT s.inputs) (dropLastCol deltah)) ni1 h := by
    have h0 := rect_matMulP (matT s.inputs) (dropLastCol deltah)
    rwa [hIT.1, rect_width hdh' hN] at h0
  have hmm2 : matMul (matT s.hidden) deltao = .ok (matMulP (matT s.hidden) deltao) :=
    matMul_ok ((rect_width hHT (Nat.succ_pos h)).trans hdo.1.symm)
  have hg2 : Rect (matMulP (matT s.hidden) deltao) (h + 1) out := by
    have h0 := rect_matMulP (matT s.hidden) deltao
    rwa [hHT.1, rect_width hdo hN] at h0
  have hin1 : matInto (· + ·) (matSMul s.momentum s.update_w1)
        (matSMul s.eta (matMulP (matT s.inputs) (dropLastCol deltah)))
      = .ok (matZipP (· + ·) (matSMul s.momentum s.update_w1)
        (matSMul s.eta (matMulP (matT s.inputs) (dropLastCol deltah)))) :=
    matInto_eq (rect_matSMul hu1) (rect_matSMul hg1)
  have hin2 : matInto (· + ·) (matSMul s.momentum s.update_w2)
        (matSMul s.eta (matMulP (matT s.hidden) deltao))
      = .ok (matZipP (· + ·) (matSMul s.momentum s.update_w2)
        (matSMul s.eta (matMulP (matT s.hidden) deltao))) :=
    matInto_eq (rect_matSMul hu2) (rect_matSMul hg2)
  have hfin1 : matInto (· + ·) s.weights_layer1
        (matZipP (· + ·) (matSMul s.momentum s.update_w1)
          (matSMul s.eta (matMulP (matT s.inputs) (dropLastCol deltah))))
      = .ok (matZipP (· + ·) s.weights_layer1
        (matZipP (· + ·) (matSMul s.momentum s.update_w1)
          (matSMul s.eta (matMulP (matT s.inputs) (dropLastCol deltah))))) :=
    matInto_eq hw1 (rect_matZipP (rect_matSMul hu1) (rect_matSMul hg1))
  have hfin2 : matInto (· + ·) s.weights_layer2
        (matZipP (· + ·) (matSMul s.momentum s.update_w2)
          (matSMul s.eta (matMulP (matT s.hidden) deltao)))
      = .ok (matZipP (· + ·) s.weights_layer2
        (matZipP (· + ·) (matSMul s.momentum s.update_w2)
          (matSMul s.eta (matMulP (matT s.hidden) deltao)))) :=
    matInto_eq hw2 (rect_matZipP (rect_matSMul hu2) (rect_matSMul hg2))
  simp only [MLP.update_weights, hmm1, hmm2, hin1, hin2, hfin1, hfin2]

theorem zipWith_zero_add_row {a x : List ℚ} (h : a.length = x.length) :
    List.zipWith (· + ·) (a.map (fun _ => (0 : ℚ))) x = x := by
  induction a generalizing x with
  | nil => cases x with | nil => rfl | cons y ys => simp at h
  | cons b bs ih =>
    cases x with
    | nil => simp at h
    | cons y ys =>
      simp only [List.map, List.zipWith, zero_add]
      exact congrArg _ (ih (by simpa using h))

theorem matZipP_zerosLike_add {w X : Mat} {c : Nat} (hlen : w.length = X.length)
    (hwc : ∀ row ∈ w, row.length = c) (hXc : ∀ row ∈ X, row.length = c) :
    matZipP (· + ·) (zerosLike w) X = X := by
  induction w generalizing X with
  | nil => cases X with | nil => rfl | cons _ _ => simp at hlen
  | cons a as ih =>
    cases X with
    | nil => simp at hlen
    | cons x xs =>
      simp only [zerosLike, List.map, matZipP, List.zipWith]
      have h1 : List.zipWith (· + ·) (a.map (fun _ => (0 : ℚ))) x = x :=
        zipWith_zero_add_row (by rw [hwc a (by simp), hXc x (by simp)])
      have h2 : matZipP (· + ·) (zerosLike as) xs = xs :=
        ih (by simpa using hlen) (fun row hr => hwc row (by simp [hr]))
          (fun row hr => hXc row (by simp [hr]))
      rw [h1]
      exact congrArg _ h2

theorem matSMul_zerosLike (q : ℚ) (m : Mat) : matSMul q (zerosLike m) = zerosLike m := by
  simp [matSMul, zerosLike, List.map_map, Function.comp]

/-- Claim C5: every weight update computes, for each layer,
`new_accumulator = momentum · old_accumulator + eta · (transpose(layer_inputs) · delta)`,
using all but the trailing bias column of `deltah` for the layer-1 update, and
then adds the new accumulator to the corresponding weight matrix in place. -/
theorem update_weights_momentum_rule (s : MLPState) (deltao deltah : Mat)
    (N ni1 h out : Nat) (hN : 0 < N) (hni : 0 < ni1)
    (hI : Rect s.inputs N ni1) (hdh : Rect deltah N (h + 1))
    (hu1 : Rect s.update_w1 ni1 h) (hw1 : Rect s.weights_layer1 ni1 h)
    (hH : Rect s.hidden N (h + 1)) (hdo : Rect deltao N out)
    (hu2 : Rect s.update_w2 (h + 1) out) (hw2 : Rect s.weights_layer2 (h + 1) out) :
    MLP.update_weights s deltao deltah = .ok
      { s with
        update_w1 := matAddP (matSMul s.momentum s.update_w1)
          (matSMul s.eta (matMulP (matT s.inputs) (dropLastCol deltah))),
        update_w2 := matAddP (matSMul s.momentum s.update_w2)
          (matSMul s.eta (matMulP (matT s.hidden) deltao)),
        weights_layer1 := matAddP s.weights_layer1
          (matAddP (matSMul s.momentum s.update_w1)
            (matSMul s.eta (matMulP (matT s.inputs) (dropLastCol deltah)))),
        weights_layer2 := matAddP s.weights_layer2
          (matAddP (matSMul s.momentum s.update_w2)
            (matSMul s.eta (matMulP (matT s.hidden) deltao))) } :=
  update_weights_eq s deltao deltah hN hni hI hdh hu1 hw1 hH hdo hu2 hw2

theorem update_weights_momentum_rule_witness :
    MLP.update_weights exU5 [[1]] [[1, 2]] = .ok
      { exU5 with
        update_w1 := matAddP (matSMul exU5.momentum exU5.update_w1)
          (matSMul exU5.eta (matMulP (matT exU5.inputs) (dropLastCol [[1, 2]]))),
        update_w2 := matAddP (matSMul exU5.momentum exU5.update_w2)
          (matSMul exU5.eta (matMulP (matT exU5.hidden) [[1]])),
        weights_layer1 := matAddP exU5.weights_layer1
          (matAddP (matSMul exU5.momentum exU5.update_w1)
            (matSMul exU5.eta (matMulP (matT exU5.inputs) (dropLastCol [[1, 2]])))),
        weights_layer2 := matAddP exU5.weights_layer2
          (matAddP (matSMul exU5.momentum exU5.update_w2)
            (matSMul exU5.eta (matMulP (matT exU5.hidden) [[1]]))) } :=
  update_weights_momentum_rule exU5 [[1]] [[1, 2]] 1 2 1 1 (by decide) (by decide)
    (by decide) (by decide) (by decide) (by decide) (by decide) (by decide)
    (by decide) (by decide)

/-- Claim C7: at the start of every `train` invocation both momentum
accumulators are reset to zero matrices, so on iteration 1 of a fresh call
(where the accumulators still hold those zeros) the weight delta equals
`eta` times the gradient term, with no momentum contribution. -/
theorem train_resets_momentum_accumulators (s s1 : MLPState) (eta : ℚ) (o : String)
    (deltao deltah : Mat) (N ni1 h out : Nat) (hN : 0 < N) (hni : 0 < ni1)
    (hz1 : s1.update_w1 = zerosLike s1.weights_layer1)
    (hz2 : s1.update_w2 = zerosLike s1.weights_layer2)
    (hI : Rect s1.inputs N ni1) (hdh : Rect deltah N (h + 1))
    (hw1 : Rect s1.weights_layer1 ni1 h)
    (hH : Rect s1.hidden N (h + 1)) (hdo : Rect deltao N out)
    (hw2 : Rect s1.weights_layer2 (h + 1) out) :
    (MLP.trainInit s eta o).update_w1 = zerosLike s.weights_layer1 ∧
    (MLP.trainInit s eta o).update_w2 = zerosLike s.weights_layer2 ∧
    MLP.update_weights s1 deltao deltah = .ok
      { s1 with
        update_w1 := matSMul s1.eta (matMulP (matT s1.inputs) (dropLastCol deltah)),
        update_w2 := matSMul s1.eta (matMulP (matT s1.hidden) deltao),
        weights_layer1 := matAddP s1.weights_layer1
          (matSMul s1.eta (matMulP (matT s1.inputs) (dropLastCol deltah))),
        weights_layer2 := matAddP s1.weights_layer2
          (matSMul s1.eta (matMulP (matT s1.hidden) deltao)) } := by
  refine ⟨rfl, rfl, ?_⟩
  have hu1 : Rect s1.update_w1 ni1 h := by rw [hz1]; exact rect_zerosLike hw1
  have hu2 : Rect s1.update_w2 (h + 1) out := by rw [hz2]; exact rect_zerosLike hw2
  have heq := update_weights_eq s1 deltao deltah hN hni hI hdh hu1 hw1 hH hdo hu2 hw2
  have hIT : Rect (matT s1.inputs) ni1 N := by
    have h0 := rect_matT s1.inputs
    rwa [rect_width hI hN, hI.1] at h0
  have hHT : Rect (matT s1.hidden) (h + 1) N := by
    have h0 := rect_matT s1.hidden
    rwa [rect_width hH hN, hH.1] at h0
  have hG1 : Rect (matMulP (matT s1.inputs) (dropLastCol deltah)) ni1 h := by
    have h0 := rect_matMulP (matT s1.inputs) (dropLastCol deltah)
    rwa [hIT.1, rect_width (rect_dropLastCol hdh) hN] at h0
  have hG2 : Rect (matMulP (matT s1.hidden) deltao) (h + 1) out := by
    have h0 := rect_matMulP (matT s1.hidden) deltao
    rwa [hHT.1, rect_width hdo hN] at h0
  have e1 : matZipP (· + ·) (matSMul s1.momentum s1.update_w1)
        (matSMul s1.eta (matMulP (matT s1.inputs) (dropLastCol deltah)))
      = matSMul s1.eta (matMulP (matT s1.inputs) (dropLastCol deltah)) := by
    rw [hz1, matSMul_zerosLike]
    exact matZipP_zerosLike_add (hw1.1.trans (rect_matSMul hG1).1.symm)
      hw1.2 (rect_matSMul hG1).2
  have e2 : matZipP (· + ·) (matSMul s1.momentum s1.update_w2)
        (matSMul s1.eta (matMulP (matT s1.hidden) deltao))
      = matSMul s1.eta (matMulP (matT s1.hidden) deltao) := by
    rw [hz2, matSMul_zerosLike]
    exact matZipP_zerosLike_add (hw2.1.trans (rect_matSMul hG2).1.symm)
      hw2.2 (rect_matSMul hG2).2
  rw [heq, e1, e2]
  rfl

theorem train_resets_momentum_accumulators_witness :
    (MLP.trainInit exU7 (1/2) "linear").update_w1 = zerosLike exU7.weights_layer1 ∧
    (MLP.trainInit exU7 (1/2) "linear").update_w2 = zerosLike exU7.weights_layer2 ∧
    MLP.update_weights exU7 [[1]] [[1, 2]] = .ok
      { exU7 with
        update_w1 := matSMul exU7.eta (matMulP (matT exU7.inputs) (dropLastCol [[1, 2]])),
        update_w2 := matSMul exU7.eta (matMulP (matT exU7.hidden) [[1]]),
        weights_layer1 := matAddP exU7.weights_layer1
          (matSMul exU7.eta (matMulP (matT exU7.inputs) (dropLastCol [[1, 2]]))),
        weights_layer2 := matAddP exU7.weights_layer2
          (matSMul exU7.eta (matMulP (matT exU7.hidden) [[1]])) } :=
  train_resets_momentum_accumulators exU7 exU7 (1/2) "linear" [[1]] [[1, 2]] 1 2 1 1
    (by decide) (by decide) (by decide) (by decide) (by decide) (by decide)
    (by decide) (by decide) (by decide) (by decide)

theorem str_logistic_ne_linear : (("logistic" : String) = "linear") = False := eq_false (by decide)

theorem str_softmax_ne_linear : (("softmax" : String) = "linear") = False := eq_false (by decide)

theorem str_softmax_ne_logistic : (("softmax" : String) = "logistic") = False := eq_false (by decide)

/-- Claim C6: in every backward pass, the output error `deltao` equals
`targets − outputs` scaled per `outtype`: divided by `data_amount` for
`linear`, multiplied elementwise by `outputs · (1 − outputs)` for `logistic`,
divided by `data_amount` for `softmax`.  (The hidden error accompanying it is
also characterised; `_compute_errors` leaves the state untouched.) -/
theorem compute_errors_deltao_rule (s : MLPState) (N h out : Nat)
    (hN : 0 < N) (ho : 0 < out)
    (hT : Rect s.targets N out) (hO : Rect s.outputs N out)
    (hH : Rect s.hidden N (h + 1)) (hw2 : Rect s.weights_layer2 (h + 1) out) :
    (s.outtype = "linear" → MLP.compute_errors s = .ok
      ((matSDiv (matZipP (· - ·) s.targets s.outputs) (s.data_amount : ℚ),
        matZipP (· * ·) (matZipP (· * ·) s.hidden (scalarSub 1 s.hidden))
          (matMulP (matSDiv (matZipP (· - ·) s.targets s.outputs) (s.data_amount : ℚ))
            (matT s.weights_layer2))), s)) ∧
    (s.outtype = "logistic" → MLP.compute_errors s = .ok
      ((matZipP (· * ·) (matZipP (· - ·) s.targets s.outputs)
          (matZipP (· * ·) s.outputs (scalarSub 1 s.outputs)),
        matZipP (· * ·) (matZipP (· * ·) s.hidden (scalarSub 1 s.hidden))
          (matMulP (matZipP (· * ·) (matZipP (· - ·) s.targets s.outputs)
              (matZipP (· * ·) s.outputs (scalarSub 1 s.outputs)))
            (matT s.weights_layer2))), s)) ∧
    (s.outtype = "softmax" → MLP.compute_errors s = .ok
      ((matSDiv (matZipP (· - ·) s.targets s.outputs) (s.data_amount : ℚ),
        matZipP (· * ·) (matZipP (· * ·) s.hidden (scalarSub 1 s.hidden))
          (matMulP (matSDiv (matZipP (· - ·) s.targets s.outputs) (s.data_amount : ℚ))
            (matT s.weights_layer2))), s)) := by
  have hsub : matZip (· - ·) s.targets s.outputs = .ok (matZipP (· - ·) s.targets s.outputs) :=
    matZip_eq hT hO
  have hd0 : Rect (matZipP (· - ·) s.targets s.outputs) N out := rect_matZipP hT hO
  have hhz : matZip (· * ·) s.hidden (scalarSub 1 s.hidden)
      = .ok (matZipP (· * ·) s.hidden (scalarSub 1 s.hidden)) :=
    matZip_eq hH (rect_scalarSub hH)
  have hdh0 : Rect (matZipP (· * ·) s.hidden (scalarSub 1 s.hidden)) N (h + 1) :=
    rect_matZipP hH (rect_scalarSub hH)
  have htw2 : Rect (matT s.weights_layer2) out (h + 1) := by
    have h0 := rect_matT s.weights_layer2
    rwa [rect_width hw2 (Nat.succ_pos h), hw2.1] at h0
  have tail : ∀ d : Mat, Rect d N out →
      matMul d (matT s.weights_layer2) = .ok (matMulP d (matT s.weights_layer2)) ∧
      matInto (· * ·) (matZipP (· * ·) s.hidden (scalarSub 1 s.hidden))
          (matMulP d (matT s.weights_layer2))
        = .ok (matZipP (· * ·) (matZipP (· * ·) s.hidden (scalarSub 1 s.hidden))
            (matMulP d (matT s.weights_layer2))) := by
    intro d hd
    have hmm : matMul d (matT s.weights_layer2) = .ok (matMulP d (matT s.weights_layer2)) :=
      matMul_ok ((rect_width hd hN).trans htw2.1.symm)
    have hback : Rect (matMulP d (matT s.weights_layer2)) N (h + 1) := by
      have h0 := rect_matMulP d (matT s.weights_layer2)
      rw [hd.1, matWidth_matT (by rw [rect_width hw2 (Nat.succ_pos h)]; omega)] at h0
      rwa [hw2.1] at h0
    exact ⟨hmm, matInto_eq hdh0 hback⟩
  refine ⟨?_, ?_, ?_⟩ <;> intro hout
  · have hdlin : Rect (matSDiv (matZipP (· - ·) s.targets s.outputs) (s.data_amount : ℚ)) N out :=
      rect_matSDiv hd0
    obtain ⟨t1, t2⟩ := tail _ hdlin
    simp only [MLP.compute_errors, MLP.compute_errors_val, hsub, hout, if_true,
      eq_self_iff_true, hhz, t1, t2]
  · have hsq : matZip (· * ·) s.outputs (scalarSub 1 s.outputs)
        = .ok (matZipP (· * ·) s.outputs (scalarSub 1 s.outputs)) :=
      matZip_eq hO (rect_scalarSub hO)
    have hinto : matInto (· * ·) (matZipP (· - ·) s.targets s.outputs)
          (matZipP (· * ·) s.outputs (scalarSub 1 s.outputs))
        = .ok (matZipP (· * ·) (matZipP (· - ·) s.targets s.outputs)
            (matZipP (· * ·) s.outputs (scalarSub 1 s.outputs))) :=
      matInto_eq hd0 (rect_matZipP hO (rect_scalarSub hO))
    have hdlog : Rect (matZipP (· * ·) (matZipP (· - ·) s.targets s.outputs)
        (matZipP (· * ·) s.outputs (scalarSub 1 s.outputs))) N out :=
      rect_matZipP hd0 (rect_matZipP hO (rect_scalarSub hO))
    obtain ⟨t1, t2⟩ := tail _ hdlog
    simp only [MLP.compute_errors, MLP.compute_errors_val, hsub, hout,
      str_logistic_ne_linear, if_false, eq_self_iff_true, if_true, hsq, hinto, hhz, t1, t2]
  · have hdsof : Rect (matSDiv (matZipP (· - ·) s.targets s.outputs) (s.data_amount : ℚ)) N out :=
      rect_matSDiv hd0
    obtain ⟨t1, t2⟩ := tail _ hdsof
    simp only [MLP.compute_errors, MLP.compute_errors_val, hsub, hout,
      str_softmax_ne_linear, str_softmax_ne_logistic, if_false, eq_self_iff_true,
      if_true, hhz, t1, t2]

theorem compute_errors_deltao_rule_witness :
    (exC6.outtype = "linear" → MLP.compute_errors exC6 = .ok
      ((matSDiv (matZipP (· - ·) exC6.targets exC6.outputs) (exC6.data_amount : ℚ),
        matZipP (· * ·) (matZipP (· * ·) exC6.hidden (scalarSub 1 exC6.hidden))
          (matMulP (matSDiv (matZipP (· - ·) exC6.targets exC6.outputs) (exC6.data_amount : ℚ))
            (matT exC6.weights_layer2))), exC6)) ∧
    (exC6.outtype = "logistic" → MLP.compute_errors exC6 = .ok
      ((matZipP (· * ·) (matZipP (· - ·) exC6.targets exC6.outputs)
          (matZipP (· * ·) exC6.outputs (scalarSub 1 exC6.outputs)),
        matZipP (· * ·) (matZipP (· * ·) exC6.hidden (scalarSub 1 exC6.hidden))
          (matMulP (matZipP (· * ·) (matZipP (· - ·) exC6.targets exC6.outputs)
              (matZipP (· * ·) exC6.outputs (scalarSub 1 exC6.outputs)))
            (matT exC6.weights_layer2))), exC6)) ∧
    (exC6.outtype = "softmax" → MLP.compute_errors exC6 = .ok
      ((matSDiv (matZipP (· - ·) exC6.targets exC6.outputs) (exC6.data_amount : ℚ),
        matZipP (· * ·) (matZipP (· * ·) exC6.hidden (scalarSub 1 exC6.hidden))
          (matMulP (matSDiv (matZipP (· - ·) exC6.targets exC6.outputs) (exC6.data_amount : ℚ))
            (matT exC6.weights_layer2))), exC6)) :=
  compute_errors_deltao_rule exC6 1 1 1 (by decide) (by decide) (by decide) (by decide)
    (by decide) (by decide)

/-- Claim C8: in every iteration of every `train` invocation, lines 107-109
apply the same freshly shuffled index list to the stored inputs and targets —
`ny.random.shuffle` permutes the index list in place, so `perm` is a
permutation of `range(data_amount)` — and therefore every (input-row,
target-row) pair present before the shuffle appears together at some index
afterwards. -/
theorem shuffle_preserves_row_pairs (s : MLPState) (perm : List Nat)
    (hperm : perm.Perm (List.range s.data_amount))
    (hi : s.inputs.length = s.data_amount) (ht : s.targets.length = s.data_amount) :
    MLP.shuffleStep perm s = .ok { s with
      inputs := perm.map (fun j => s.inputs.getD j []),
      targets := perm.map (fun j => s.targets.getD j []) } ∧
    ∀ i, i < s.data_amount → ∃ k, k < s.data_amount ∧
      (perm.map (fun j => s.inputs.getD j [])).getD k [] = s.inputs.getD i [] ∧
      (perm.map (fun j => s.targets.getD j [])).getD k [] = s.targets.getD i [] := by
  have hbound : ∀ j ∈ perm, j < s.data_amount := by
    intro j hj
    exact List.mem_range.mp (hperm.mem_iff.mp hj)
  have hlen : perm.length = s.data_amount := by
    rw [hperm.length_eq, List.length_range]
  constructor
  · have h1 : indexRows s.inputs perm = .ok (perm.map (fun j => s.inputs.getD j [])) := by
      rw [indexRows, if_pos (by rw [hi]; exact hbound)]
    have h2 : indexRows s.targets perm = .ok (perm.map (fun j => s.targets.getD j [])) := by
      rw [indexRows, if_pos (by rw [ht]; exact hbound)]
    simp only [MLP.shuffleStep, h1, h2]
  · intro i hi0
    have hmem : i ∈ perm := hperm.mem_iff.mpr (List.mem_range.mpr hi0)
    obtain ⟨k, hk, hkeq⟩ := List.mem_iff_getElem.mp hmem
    refine ⟨k, by omega, ?_, ?_⟩
    · rw [List.getD_eq_getElem _ _ (by simp; omega), List.getElem_map, hkeq]
    · rw [List.getD_eq_getElem _ _ (by simp; omega), List.getElem_map, hkeq]

theorem shuffle_preserves_row_pairs_witness :
    MLP.shuffleStep [1, 0] exS8 = .ok { exS8 with
      inputs := [1, 0].map (fun j => exS8.inputs.getD j []),
      targets := [1, 0].map (fun j => exS8.targets.getD j []) } :=
  (shuffle_preserves_row_pairs exS8 [1, 0] (by decide) (by decide) (by decide)).1

theorem matMul_ok_val {a b m : Mat} (h : matMul a b = .ok m) : m = matMulP a b := by
  by_cases hc : matWidth a = b.length
  · simp [matMul, hc] at h
    exact h.symm
  · simp [matMul, hc] at h

/-- Claim C9: for every raw (non-augmented) input vector, `use` appends the
bias feature and runs the forward computation with the logistic output
activation unconditionally — the network state's `outtype` is never
consulted — and returns the resulting output vector (or the forward
computation's exception). -/
theorem use_applies_logistic_unconditionally (s : MLPState) (x : List ℚ) :
    MLP.use s x = forwardValue (MLP.forward { s with outtype := "logistic" } [x ++ [(-1 : ℚ)]]) ∧
    ∀ t, MLP.use { s with outtype := t } x = MLP.use s x := by
  constructor
  · rcases h1 : matMul [x ++ [(-1 : ℚ)]] s.weights_layer1 with e1 | hid
    · simp [MLP.use, MLP.forward, forwardValue, concatCols, h1]
    · obtain rfl : hid = matMulP [x ++ [(-1 : ℚ)]] s.weights_layer1 := matMul_ok_val h1
      have hlen : (sigmoidMat s.beta s.expf (matMulP [x ++ [(-1 : ℚ)]] s.weights_layer1)).length = 1 := by
        simp [sigmoidMat, matMulP]
      rcases h2 : matMul (List.zipWith (· ++ ·)
          (sigmoidMat s.beta s.expf (matMulP [x ++ [(-1 : ℚ)]] s.weights_layer1))
          [[(-1 : ℚ)]]) s.weights_layer2 with e2 | outs
      · simp [MLP.use, MLP.forward, forwardValue, concatCols, h1, h2, hlen]
      · simp [MLP.use, MLP.forward, forwardValue, concatCols, h1, h2, hlen,
          str_logistic_ne_linear]
  · intro t
    rfl

theorem esLoop_cv (valid2 validtargets cv cvt : Mat) (eta : ℚ) (iterations : Nat)
    (outtype : String) (perms : Nat → Nat → List Nat) :
    ∀ (fuel : Nat) (s : MLPState) (old2 old1 newE : ℚ) (count : Nat),
      cvOf (MLP.esLoop valid2 validtargets cv cvt eta iterations outtype perms
        fuel s old2 old1 newE count) = (cv, cvt) := by
  intro fuel
  induction fuel with
  | zero => intro s o2 o1 ne c; rfl
  | succ fuel ih =>
    intro s o2 o1 ne c
    rw [MLP.esLoop]
    by_cases hcond : (o1 - ne > 1 / 1000) ∨ (o2 - o1 > 1 / 1000)
    · rw [if_pos hcond]
      rcases htr : MLP.train s eta iterations outtype (perms (c + 1)) with e1 | s2
      · obtain ⟨e, sF⟩ := e1
        simp only [htr]
        rfl
      · simp only [htr]
        rcases hf : MLP.forward s2 valid2 with e1 | p
        · obtain ⟨e, sF⟩ := e1
          simp only [hf]
          rfl
        · obtain ⟨vo, s3⟩ := p
          simp only [hf]
          rcases hz : matZip (· - ·) validtargets vo with e | diff
          · simp only [hz]
            rfl
          · simp only [hz]
            exact ih s3 o1 ne _ (c + 1)
    · rw [if_neg hcond]
      rfl

/-- Claim C10: the caller-supplied validation arrays are handed back
unmodified by `early_stopping` — on every outcome, including failures and
non-termination, since no statement of the method writes to them (the bias
column is appended to a fresh local copy of the validation inputs, and the
validation targets are only read). -/
theorem early_stopping_preserves_validation_arrays (fuel : Nat) (s : MLPState)
    (valid validtargets : Mat) (eta : ℚ) (iterations : Nat) (outtype : String)
    (perms : Nat → Nat → List Nat) :
    cvOf (MLP.early_stopping fuel s valid validtargets eta iterations outtype perms)
      = (valid, validtargets) := by
  unfold MLP.early_stopping
  rcases h : concatCols valid (List.replicate valid.length [(-1 : ℚ)]) with e | v2
  · simp only [h]
    rfl
  · simp only [h]
    exact esLoop_cv v2 validtargets valid validtargets eta iterations outtype perms
      fuel s 100002 100001 100000 0

theorem esLoop_done (valid2 validtargets cv cvt : Mat) (eta : ℚ) (iterations : Nat)
    (outtype : String) (perms : Nat → Nat → List Nat) :
    ∀ (fuel : Nat) (s : MLPState) (old2 old1 newE : ℚ) (count : Nat)
      (c : Nat) (e : ℚ) (r : PyVal),
      doneOf (MLP.esLoop valid2 validtargets cv cvt eta iterations outtype perms
        fuel s old2 old1 newE count) = some (c, e, r) →
      r = PyVal.none ∧ count ≤ c ∧
        ((old1 - newE > 1 / 1000 ∨ old2 - old1 > 1 / 1000) → count + 1 ≤ c) := by
  intro fuel
  induction fuel with
  | zero => intro s o2 o1 ne cnt c e r h; exact absurd h (by simp [MLP.esLoop, doneOf])
  | succ fuel ih =>
    intro s o2 o1 ne cnt c e r h
    rw [MLP.esLoop] at h
    by_cases hcond : (o1 - ne > 1 / 1000) ∨ (o2 - o1 > 1 / 1000)
    · rw [if_pos hcond] at h
      rcases htr : MLP.train s eta iterations outtype (perms (cnt + 1)) with e1 | s2
      · obtain ⟨e0, sF⟩ := e1
        simp only [htr] at h
        exact absurd h (by simp [doneOf])
      · simp only [htr] at h
        rcases hf : MLP.forward s2 valid2 with e1 | p
        · obtain ⟨e0, sF⟩ := e1
          simp only [hf] at h
          exact absurd h (by simp [doneOf])
        · obtain ⟨vo, s3⟩ := p
          simp only [hf] at h
          rcases hz : matZip (· - ·) validtargets vo with e0 | diff
          · simp only [hz] at h
            exact absurd h (by simp [doneOf])
          · simp only [hz] at h
            obtain ⟨hr, hle, _⟩ := ih s3 o1 ne _ (cnt + 1) c e r h
            exact ⟨hr, by omega, fun _ => hle⟩
    · rw [if_neg hcond] at h
      simp only [doneOf, Option.some.injEq, Prod.mk.injEq] at h
      obtain ⟨hc, he, hr⟩ := h
      subst hc
      exact ⟨hr.symm, le_refl _, fun hcontra => absurd hcontra hcond⟩

/-- Claim C4 (amended): a terminating `early_stopping` invocation returns
`None` — the Python method has no `return` statement — after executing at
least one round; the round count and final validation error are reported on
the console, not returned. -/
theorem early_stopping_returns_no_pair (fuel : Nat) (s : MLPState) (valid validtargets : Mat)
    (eta : ℚ) (iterations : Nat) (outtype : String) (perms : Nat → Nat → List Nat)
    (c : Nat) (e : ℚ) (r : PyVal)
    (h : doneOf (MLP.early_stopping fuel s valid validtargets eta iterations outtype perms)
      = some (c, e, r)) :
    r = PyVal.none ∧ 1 ≤ c := by
  unfold MLP.early_stopping at h
  rcases hcc : concatCols valid (List.replicate valid.length [(-1 : ℚ)]) with e0 | v2
  · rw [hcc] at h
    exact absurd h (by simp [doneOf])
  · rw [hcc] at h
    obtain ⟨hr, _, himp⟩ := esLoop_done v2 validtargets valid validtargets eta iterations
      outtype perms fuel s 100002 100001 100000 0 c e r h
    refine ⟨hr, ?_⟩
    have := himp (Or.inl (by norm_num))
    omega

set_option maxHeartbeats 1000000 in
theorem es_concrete_run :
    doneOf (MLP.early_stopping 3 exES [[1], [1]] [[799/2], [399/2]] 0 1 "linear"
      (fun _ _ => [0])) = some (2, 100000, PyVal.none) := by
  norm_num [MLP.early_stopping, MLP.esLoop, MLP.train, MLP.trainInit, MLP.trainLoop,
    MLP.trainStep, MLP.forward, MLP.compute_errors, MLP.compute_errors_val,
    MLP.update_weights, MLP.shuffleStep,
    matMul, matMulP, matT, matWidth, matZip, matInto, bzip, brows, bcols, bcastDim,
    concatCols, dropLastCol, indexRows, zerosLike, matSMul, matSDiv, scalarSub,
    sigmoidMat, softmaxRows, doneOf, exES, List.range_succ, List.zipWith]

/-- Claim C4 (counterexample): a terminating `early_stopping` run whose loop
executed 2 rounds with final validation error 100000 returns `None`, not the
pair `(2, 100000)` the specification promises. -/
theorem early_stopping_returns_none_not_pair :
    doneOf (MLP.early_stopping 3 exES [[1], [1]] [[799/2], [399/2]] 0 1 "linear"
      (fun _ _ => [0])) = some (2, 100000, PyVal.none) ∧
    PyVal.none ≠ PyVal.pair 2 100000 :=
  ⟨es_concrete_run, by decide⟩

theorem early_stopping_returns_no_pair_witness : PyVal.none = PyVal.none ∧ 1 ≤ 2 :=
  early_stopping_returns_no_pair 3 exES [[1], [1]] [[799/2], [399/2]] 0 1 "linear"
    (fun _ _ => [0]) 2 100000 PyVal.none es_concrete_run

/-- Claim C3 (counterexample): this single training pass fails (with
`IndexError` at the dataset permutation of line 109), yet `weights_layer1`
at the moment of the failure is `[[33/32], [31/32]]`, not the `[[1], [1]]` it
held before the pass began — a failed pass that did mutate Network State. -/
theorem failed_pass_can_mutate_weights :
    errOf (MLP.train exS3 (1/4) 1 "linear" (fun _ => [0, 1])) = some PyError.indexError ∧
    errW1 (MLP.train exS3 (1/4) 1 "linear" (fun _ => [0, 1])) = some [[33/32], [31/32]] ∧
    exS3.weights_layer1 = [[1], [1]] ∧ ([[33/32], [31/32]] : Mat) ≠ [[1], [1]] := by
  refine ⟨?_, ?_, rfl, by norm_num⟩ <;>
    norm_num [MLP.train, MLP.trainInit, MLP.trainLoop, MLP.trainStep, MLP.forward,
      MLP.compute_errors, MLP.compute_errors_val, MLP.update_weights, MLP.shuffleStep,
      matMul, matMulP, matT, matWidth, matZip, matInto, bzip, brows, bcols, bcastDim,
      concatCols, dropLastCol, indexRows, zerosLike, matSMul, matSDiv, scalarSub,
      sigmoidMat, softmaxRows, errOf, errW1, exS3, List.range_succ, List.zipWith]

/-- Claim C3 (amended): a failure raised during the forward pass or during
the error computation leaves both weight matrices exactly as they were, and
within `_update_weights` itself any failure also leaves them unchanged
(mutation happens only after the full update value is computed, and the
second weight write cannot fail once the first succeeded, given accumulators
shaped like their weight matrices). -/
theorem failed_phase_preserves_weights
    (s1 s2 s3 sF1 sF2 sF3 : MLPState) (e1 e2 e3 : PyError) (ins deltao deltah : Mat)
    (h34 : s3.update_w2.length = s3.weights_layer2.length)
    (h35 : matWidth s3.update_w2 = matWidth s3.weights_layer2)
    (h36 : 0 < s3.weights_layer2.length) :
    (MLP.forward s1 ins = .error (e1, sF1) →
      sF1.weights_layer1 = s1.weights_layer1 ∧ sF1.weights_layer2 = s1.weights_layer2) ∧
    (MLP.compute_errors s2 = .error (e2, sF2) →
      sF2.weights_layer1 = s2.weights_layer1 ∧ sF2.weights_layer2 = s2.weights_layer2) ∧
    (MLP.update_weights s3 deltao deltah = .error (e3, sF3) →
      sF3.weights_layer1 = s3.weights_layer1 ∧ sF3.weights_layer2 = s3.weights_layer2) := by
  refine ⟨?_, ?_, ?_⟩
  · intro h
    unfold MLP.forward at h
    rcases hm1 : matMul ins s1.weights_layer1 with e | hid
    · simp only [hm1, Except.error.injEq, Prod.mk.injEq] at h
      rw [← h.2]
      exact ⟨rfl, rfl⟩
    · simp only [hm1] at h
      rcases hcc : concatCols (sigmoidMat s1.beta s1.expf hid)
          (List.replicate ins.length [(-1 : ℚ)]) with e | hid2
      · simp only [hcc, Except.error.injEq, Prod.mk.injEq] at h
        rw [← h.2]
        exact ⟨rfl, rfl⟩
      · simp only [hcc] at h
        rcases hm2 : matMul hid2 s1.weights_layer2 with e | outs
        · simp only [hm2, Except.error.injEq, Prod.mk.injEq] at h
          rw [← h.2]
          exact ⟨rfl, rfl⟩
        · simp only [hm2] at h
          by_cases ho1 : s1.outtype = "linear"
          · rw [ho1] at h
            simp at h
          · by_cases ho2 : s1.outtype = "logistic"
            · rw [ho2] at h
              simp [str_logistic_ne_linear] at h
            · by_cases ho3 : s1.outtype = "softmax"
              · rw [ho3] at h
                simp [str_softmax_ne_linear, str_softmax_ne_logistic] at h
              · rw [if_neg ho1, if_neg ho2, if_neg ho3] at h
                simp only [Except.error.injEq, Prod.mk.injEq] at h
                rw [← h.2]
                exact ⟨rfl, rfl⟩
  · intro h
    unfold MLP.compute_errors at h
    rcases hv : MLP.compute_errors_val s2 with e | v
    · simp only [hv, Except.error.injEq, Prod.mk.injEq] at h
      rw [← h.2]
      exact ⟨rfl, rfl⟩
    · rw [hv] at h
      simp at h
  · intro h
    unfold MLP.update_weights at h
    rcases hg1 : matMul (matT s3.inputs) (dropLastCol deltah) with e | g1
    · simp only [hg1, Except.error.injEq, Prod.mk.injEq] at h
      rw [← h.2]
      exact ⟨rfl, rfl⟩
    · simp only [hg1] at h
      rcases hu1 : matInto (· + ·) (matSMul s3.momentum s3.update_w1)
          (matSMul s3.eta g1) with e | u1
      · simp only [hu1, Except.error.injEq, Prod.mk.injEq] at h
        rw [← h.2]
        exact ⟨rfl, rfl⟩
      · simp only [hu1] at h
        rcases hg2 : matMul (matT s3.hidden) deltao with e | g2
        · simp only [hg2, Except.error.injEq, Prod.mk.injEq] at h
          rw [← h.2]
          exact ⟨rfl, rfl⟩
        · simp only [hg2] at h
          rcases hu2 : matInto (· + ·) (matSMul s3.momentum s3.update_w2)
              (matSMul s3.eta g2) with e | u2
          · simp only [hu2, Except.error.injEq, Prod.mk.injEq] at h
            rw [← h.2]
            exact ⟨rfl, rfl⟩
          · simp only [hu2] at h
            rcases hw1 : matInto (· + ·) s3.weights_layer1 u1 with e | w1n
            · simp only [hw1, Except.error.injEq, Prod.mk.injEq] at h
              rw [← h.2]
              exact ⟨rfl, rfl⟩
            · simp only [hw1] at h
              have hl2 : u2.length = s3.weights_layer2.length := by
                rw [matInto_ok_length hu2, length_matSMul, h34]
              have hww2 : matWidth u2 = matWidth s3.weights_layer2 := by
                rw [matInto_ok_width hu2 (by rw [length_matSMul]; omega),
                  matWidth_matSMul, h35]
              rw [matInto_succeeds hl2 hww2] at h
              simp at h

theorem failed_phase_preserves_weights_witness :
    (exF1post.weights_layer1 = exF1.weights_layer1 ∧
      exF1post.weights_layer2 = exF1.weights_layer2) ∧
    (exF2.weights_layer1 = exF2.weights_layer1 ∧
      exF2.weights_layer2 = exF2.weights_layer2) ∧
    (exF3post.weights_layer1 = exF3.weights_layer1 ∧
      exF3post.weights_layer2 = exF3.weights_layer2) := by
  have h := failed_phase_preserves_weights exF1 exF2 exF3 exF1post exF2 exF3post
    PyError.nameError PyError.valueError PyError.valueError [[1, -1]] [[1]] []
    (by decide) (by decide) (by decide)
  exact ⟨h.1 rfl, h.2.1 rfl, h.2.2 rfl⟩

theorem matWidth_concatBias {a : Mat} {k : Nat} (ha : a ≠ []) (hk : 0 < k) :
    matWidth (List.zipWith (· ++ ·) a (List.replicate k [(-1 : ℚ)])) = matWidth a + 1 := by
  rcases a with _ | ⟨ra, as⟩
  · exact absurd rfl ha
  · rcases k with _ | k
    · omega
    · simp [matWidth, List.replicate, List.zipWith]

/-- Claim C1 (amended): training with an `outtype` that is none of the three
recognized values does fail on the first forward pass — the value is never
silently defaulted — but the exception is a `NameError`, raised because the
error-reporting print of line 136 references the undefined name `outtype`,
not an `UnknownActivationError`. -/
theorem train_unknown_outtype_raises_nameError (s : MLPState) (eta : ℚ) (n : Nat)
    (o : String) (perms : Nat → List Nat)
    (ho1 : o ≠ "linear") (ho2 : o ≠ "logistic") (ho3 : o ≠ "softmax")
    (hn : 0 < n) (hne : s.inputs ≠ [])
    (hsh1 : matWidth s.inputs = s.weights_layer1.length)
    (hsh2 : matWidth s.weights_layer1 + 1 = s.weights_layer2.length) :
    errOf (MLP.train s eta n o perms) = some PyError.nameError := by
  obtain ⟨m, rfl⟩ : ∃ m, n = m + 1 := ⟨n - 1, by omega⟩
  have hmm1 : matMul s.inputs s.weights_layer1 = .ok (matMulP s.inputs s.weights_layer1) :=
    matMul_ok hsh1
  have hsig : (sigmoidMat s.beta s.expf (matMulP s.inputs s.weights_layer1)).length
      = s.inputs.length := by
    simp [sigmoidMat, matMulP]
  have hsne : sigmoidMat s.beta s.expf (matMulP s.inputs s.weights_layer1) ≠ [] := by
    rw [← List.length_pos, hsig, List.length_pos]
    exact hne
  have hcc : concatCols (sigmoidMat s.beta s.expf (matMulP s.inputs s.weights_layer1))
      (List.replicate s.inputs.length [(-1 : ℚ)])
      = .ok (List.zipWith (· ++ ·) (sigmoidMat s.beta s.expf (matMulP s.inputs s.weights_layer1))
          (List.replicate s.inputs.length [(-1 : ℚ)])) := by
    rw [concatCols, if_pos (by rw [hsig]; simp)]
  have hw2w : matWidth (List.zipWith (· ++ ·)
        (sigmoidMat s.beta s.expf (matMulP s.inputs s.weights_layer1))
        (List.replicate s.inputs.length [(-1 : ℚ)]))
      = s.weights_layer2.length := by
    rw [matWidth_concatBias hsne (List.length_pos.mpr hne)]
    have h1 : matWidth (sigmoidMat s.beta s.expf (matMulP s.inputs s.weights_layer1))
        = matWidth (matMulP s.inputs s.weights_layer1) := matWidth_rowmap
    rw [h1, matWidth_matMulP hne, hsh2]
  have hmm2 := matMul_ok hw2w
  simp only [MLP.train, MLP.trainLoop, MLP.trainStep, MLP.forward, MLP.trainInit,
    hmm1, hcc, hmm2, eq_false ho1, eq_false ho2, eq_false ho3, if_false, errOf]

/-- Claim C1 (counterexample): training with `outtype = "banana"` fails with
a `NameError`, which is not an `UnknownActivationError` — the failure an
`Except` computation produces is unique, so the claimed exception class is
wrong. -/
theorem train_unknown_outtype_not_unknownActivationError :
    errOf (MLP.train exS1 (1/4) 1 "banana" (fun _ => [0])) = some PyError.nameError ∧
    PyError.nameError ≠ PyError.unknownActivationError :=
  ⟨by decide, by decide⟩

theorem train_unknown_outtype_raises_nameError_witness :
    errOf (MLP.train exS1 (1/4) 1 "weird" (fun _ => [0])) = some PyError.nameError :=
  train_unknown_outtype_raises_nameError exS1 (1/4) 1 "weird" (fun _ => [0])
    (by decide) (by decide) (by decide) (by decide) (by decide) (by decide) (by decide)

/-- Claim C2 (amended): Network Construction performs no row-count
validation: with nonempty arguments and rectangular input rows it builds a
Network even when input and target row counts disagree and even when target
rows are ragged; only non-rectangular input rows make it fail, with numpy's
`ValueError` at the bias concatenation (no `ShapeError` exists in the code). -/
theorem init_validates_only_input_rectangularity (inputs targets : Mat)
    (hidden_nodes : Nat) (beta momentum : ℚ) (rand : Nat → Nat → Mat) (ef : ℚ → ℚ)
    (hi : inputs ≠ []) (ht : targets ≠ []) :
    ((∀ r ∈ inputs, r.length = (inputs.headD []).length) →
      (MLP.init inputs targets hidden_nodes beta momentum rand ef).isOk = true) ∧
    ((¬ ∀ r ∈ inputs, r.length = (inputs.headD []).length) →
      MLP.init inputs targets hidden_nodes beta momentum rand ef
        = .error PyError.valueError) := by
  rcases inputs with _ | ⟨i0, irest⟩
  · exact absurd rfl hi
  · rcases targets with _ | ⟨t0, trest⟩
    · exact absurd rfl ht
    · constructor
      · intro hrect
        unfold MLP.init
        simp only [List.head?]
        rw [if_pos (by simpa using hrect)]
        rfl
      · intro hrag
        unfold MLP.init
        simp only [List.head?]
        rw [if_neg (by simpa using hrag)]

/-- Claim C2 (counterexample): two input rows against one target row — the
row counts disagree, yet construction succeeds instead of raising a
`ShapeError`. -/
theorem init_row_count_mismatch_builds_network :
    ([[0], [1]] : Mat).length ≠ ([[0]] : Mat).length ∧
    (MLP.init [[0], [1]] [[0]] 2 1 (9/10) rand0 (fun _ => 1)).isOk = true :=
  ⟨by decide, by decide⟩

theorem init_validates_only_input_rectangularity_witness :
    MLP.init [[1], [2, 3]] [[0]] 2 1 (9/10) rand0 (fun _ => 1) = .error PyError.valueError :=
  (init_validates_only_input_rectangularity [[1], [2, 3]] [[0]] 2 1 (9/10) rand0 (fun _ => 1)
    (by decide) (by decide)).2 (by decide)
